import Mathlib

/-!
Verification of the release-descriptor synthesis, environment classification,
release-metadata extraction, inventory/server resolution and discovery-pipeline
progress logic of the Automation repository, via a shallow embedding in Lean.

The Python code is embedded as executable Lean definitions.  Python strings are
modelled as Lean `String`s (lists of characters); Python string primitives
(`strip`, `lower`, `upper`, `split`, `replace`, substring `in`, `startswith`,
`isupper`) are re-implemented faithfully below.  HTTP calls are modelled by
explicit "world" records mapping request keys to outcomes; an outcome is
`ok`/`none` for a 2xx/non-2xx response and, where a claim is about exception
handling, an explicit `raise` constructor.
-/

/-! ## Python string primitives -/

/-- Characters stripped by Python `str.strip()` and split by `\s`. -/
def isPyWs (c : Char) : Bool :=
  c = ' ' || c = '\t' || c = '\n' || c = '\r' || c = '\x0b' || c = '\x0c'

/-- Python `str.strip()`. -/
def pyStrip (s : String) : String :=
  ⟨((s.data.dropWhile isPyWs).reverse.dropWhile isPyWs).reverse⟩

/-- Python `str.lower()` (ASCII). -/
def pyLower (s : String) : String := ⟨s.data.map Char.toLower⟩

/-- Python `str.upper()` (ASCII). -/
def pyUpper (s : String) : String := ⟨s.data.map Char.toUpper⟩

/-- Split a character list on a single separator character, keeping empty
segments, as Python `str.split(sep)` does for a one-character separator. -/
def splitOnChar (sep : Char) : List Char → List (List Char)
  | [] => [[]]
  | c :: rest =>
    if c = sep then [] :: splitOnChar sep rest
    else
      match splitOnChar sep rest with
      | [] => [[c]]
      | g :: gs => (c :: g) :: gs

/-- Split a character list at every character satisfying `p`, keeping empty
segments, as Python `re.split` on a character class does. -/
def splitOnP (p : Char → Bool) : List Char → List (List Char)
  | [] => [[]]
  | c :: rest =>
    if p c then [] :: splitOnP p rest
    else
      match splitOnP p rest with
      | [] => [[c]]
      | g :: gs => (c :: g) :: gs

/-- Python `s.split(sep)` for a one-character separator. -/
def pySplitChar (s : String) (sep : Char) : List String :=
  (splitOnChar sep s.data).map (⟨·⟩)

/-- Python `s.split()` with no argument: split on whitespace runs, dropping
empty segments. -/
def pySplitWs (s : String) : List String :=
  ((splitOnP isPyWs s.data).filter (· ≠ [])).map (⟨·⟩)

/-- `needle` occurs as a contiguous sublist of the character list. -/
def listHasInfix (needle : List Char) : List Char → Bool
  | [] => needle.isEmpty
  | c :: rest => needle.isPrefixOf (c :: rest) || listHasInfix needle rest

/-- Python `sub in hay` on strings: substring containment. -/
def pyContains (hay sub : String) : Bool := listHasInfix sub.data hay.data

/-- Python `s.startswith(p)`. -/
def pyStartsWith (s p : String) : Bool := p.data.isPrefixOf s.data

/-- Replace every occurrence of the non-empty pattern `o :: os` by `new`,
scanning left to right, as Python `str.replace` does.  The `fuel` argument
(initialised to the input length, which strictly bounds the recursion because
the pattern is non-empty) makes the recursion structural. -/
def replaceAux (o : Char) (os new : List Char) : Nat → List Char → List Char
  | _, [] => []
  | 0, l => l
  | fuel + 1, c :: rest =>
    if (o :: os).isPrefixOf (c :: rest) then
      new ++ replaceAux o os new fuel ((c :: rest).drop (os.length + 1))
    else
      c :: replaceAux o os new fuel rest

/-- Python `s.replace(old, new)` (all our call sites use a non-empty `old`). -/
def pyReplace (s old new : String) : String :=
  match old.data with
  | [] => s
  | o :: os => ⟨replaceAux o os new.data s.data.length s.data⟩

/-- Python `s[-2:]`: the last two characters (or the whole string when it is
shorter than two characters). -/
def pyLast2 (s : String) : String := ⟨s.data.drop (s.data.length - 2)⟩

/-- Python `str.isupper()`: at least one cased character and every cased
character uppercase (ASCII letters are the cased characters here). -/
def pyIsUpper (s : String) : Bool :=
  s.data.any Char.isAlpha && s.data.all (fun c => !c.isAlpha || c.isUpper)

/-! ## Bolt descriptor synthesis (`Bolt_V1.py` / `Bolt_V2.py`)

The descriptor-construction logic of `submit_details`, the month table
(`get_month_abbreviation`) and the environment classifier
(`determine_phase_type`) are identical in both revisions; they are embedded
once.  The JSON file write and the message box are side effects outside the
descriptor construction and are not part of the embedding. -/

/-- The fixed twelve-entry month table of `Bolt_V1.py` / `Bolt_V2.py`. -/
def month_mappings : List (String × String) :=
  [("01", "JAN"), ("02", "FEB"), ("03", "MAR"), ("04", "APR"),
   ("05", "MAY"), ("06", "JUNE"), ("07", "JULY"), ("08", "AUG"),
   ("09", "SEPT"), ("10", "OCT"), ("11", "NOV"), ("12", "DEC")]

/-- `get_month_abbreviation` (`Bolt_V2.py`); `Bolt_V1.py` inlines the same
`month_mappings.get(month, "")` lookup. -/
def get_month_abbreviation (month_num : String) : String :=
  (List.lookup month_num month_mappings).getD ""

/-- The environment→phase table of `determine_phase_type` (identical key/value
list in `Bolt_V1.py` and `Bolt_V2.py`). -/
def environment_mapping : List (String × String) :=
  [("DEV", "DEV"), ("DIF", "DEV"), ("SE", "LLE"), ("PL1", "LLE"),
   ("PL2", "LLE"), ("QA", "LLE"), ("SAPE", "LLE"), ("UAT", "LLE"),
   ("PODA", "PROD"), ("PODB", "PROD"), ("PODC", "PROD"), ("PODD", "PROD"),
   ("PODE", "PROD"), ("PODF", "PROD"), ("DARKPROD", "PROD"),
   ("DARKPOD", "PROD"), ("DP", "PROD"), ("DPROD", "PROD"), ("PROD", "PROD"),
   ("POD", "PROD"), ("PRODUCTION", "PROD"), ("Prod", "PROD"),
   ("Production", "PROD")]

/-- `determine_phase_type`: strip the token, look it up in the fixed table,
default to `"Unknown"`.  (`Bolt_V1.py` takes an ignored platform argument.) -/
def determine_phase_type (env_name : String) : String :=
  (List.lookup (pyStrip env_name) environment_mapping).getD "Unknown"

/-- The exception raised by `releasedate.split(".")[1]` when the date has no
second `.`-delimited segment: Python `IndexError`.  The spec's error taxonomy
labels this condition `InputFormatError`. -/
inductive PyExn where
  | indexError
deriving DecidableEq

deriving instance DecidableEq for Except

/-- One entry of the descriptor's `environments` array. -/
structure EnvEntry where
  environmentName : String
  phaseType : String
deriving DecidableEq

/-- The JSON document assembled by `submit_details` (the `data` dict; the
`component` sub-object is flattened into the first four fields). -/
structure Descriptor where
  integratedReleaseEnvironments : List String
  releaseComponents : List String
  disableReleaseTrainPreDeployGates : Bool
  disableAllComponentReleaseGates : Bool
  environments : List EnvEntry
deriving DecidableEq

/-- The descriptor construction of `submit_details` (`Bolt_V1.py` lines 6-52,
`Bolt_V2.py` lines 92-124).  `releasedate.split(".")[1]` raises `IndexError`
when the date has fewer than two `.`-segments; this is the only failure. -/
def submit_details (SPK releasedate : String) (components env_names : List String)
    (platform : String) : Except PyExn Descriptor :=
  match (pySplitChar releasedate '.')[1]? with
  | none => .error .indexError
  | some release_date_month =>
    let release_date_year := pyLast2 ((pySplitChar releasedate '.').headD "")
    let month_abbreviation := get_month_abbreviation release_date_month
    let release_components :=
      if platform = "Datical" then
        components.map (fun component =>
          SPK ++ " " ++ pyLower (pyStrip component) ++ " " ++ releasedate ++ ":1")
      else
        components.map (fun component =>
          SPK ++ " " ++ pyLower (pyStrip component) ++ " $\x7breleaseBranch\x7d:1")
    let environments := env_names.map (fun env =>
      { environmentName :=
          if platform = "Datical" then
            pyStrip env ++ "FOR" ++ month_abbreviation ++ release_date_year
          else pyStrip env,
        phaseType := determine_phase_type env })
    .ok
      { integratedReleaseEnvironments := env_names.map (fun env =>
          if platform = "Datical" then
            pyStrip env ++ "FOR" ++ month_abbreviation ++ release_date_year
          else pyStrip env),
        releaseComponents := release_components,
        disableReleaseTrainPreDeployGates := false,
        disableAllComponentReleaseGates := false,
        environments := environments }

/-! ## XLR client: release-id extraction (`api_client.py` lines 52-121) -/

/-- `[a-zA-Z0-9]` of the regex `Release([a-zA-Z0-9]+)`. -/
def isAlnum (c : Char) : Bool := c.isAlpha || c.isDigit

/-- Match `Release([a-zA-Z0-9]+)` anchored at the head of the character list,
returning `"Release" + group(1)` on success. -/
def matchReleaseAt (cs : List Char) : Option (List Char) :=
  if cs.take 7 = "Release".data then
    let run := (cs.drop 7).takeWhile isAlnum
    if run.isEmpty then none else some ("Release".data ++ run)
  else none

/-- `re.search(r'Release([a-zA-Z0-9]+)', s)`: leftmost match. -/
def searchRelease : List Char → Option (List Char)
  | [] => none
  | c :: rest => (matchReleaseAt (c :: rest)).orElse (fun _ => searchRelease rest)

/-- The shared per-path-segment logic of the second and third approaches of
`extract_release_id_from_url`: a segment containing `Release` yields either the
first `-`-separated piece starting with `Release` (compound segments) or the
segment itself when it starts with `Release`. -/
def pickFromPart (part : String) : Option String :=
  if pyContains part "Release" then
    if pyContains part "-Release" then
      (pySplitChar part '-').find? (fun p => pyStartsWith p "Release")
    else if pyStartsWith part "Release" then some part
    else none
  else none

/-- First approach: direct regex extraction. -/
def approach1 (u : String) : Option String :=
  (searchRelease u.data).map (fun l => ⟨l⟩)

/-- Second approach: fragment (`#/`) plus `/relationships/table` URLs, walking
the `/`-separated segments. -/
def approach2 (u : String) : Option String :=
  if pyContains u "#/" && pyContains u "/relationships/table" then
    (pySplitChar u '/').findSome? pickFromPart
  else none

/-- Third approach: strip the fragment marker and the trailing suffix, then
scan the `/`-separated segments. -/
def approach3 (u : String) : Option String :=
  let m1 := if pyContains u "#/" then pyReplace u "#/" "/" else u
  let m2 :=
    if pyContains m1 "/relationships/table" then pyReplace m1 "/relationships/table" "" else m1
  (pySplitChar m2 '/').findSome? pickFromPart

/-- `XLRClient.extract_release_id_from_url`: URL-decode `%23`/`%2F`, then try
the three approaches in order; the fallback is the literal sentinel `"table"`. -/
def extract_release_id_from_url (release_url : String) : String :=
  let u := pyReplace (pyReplace release_url "%23" "#") "%2F" "/"
  match approach1 u with
  | some rid => rid
  | none =>
    match approach2 u with
    | some rid => rid
    | none =>
      match approach3 u with
      | some rid => rid
      | none => "table"

/-! ## XLR client: SPK / organization extraction (`api_client.py` lines 165-345) -/

/-- Outcome of one HTTP GET: 2xx with a payload, a non-2xx status, or a raised
exception (connection error, JSON decode error, ...). -/
inductive Fetch (α : Type) where
  | ok : α → Fetch α
  | httpFail
  | raise
deriving DecidableEq

/-- One entry of a release's `variables` array.  A missing/`None` value is
modelled as `""`, which the code's truthiness checks treat identically. -/
structure XVar where
  key : String
  value : String
deriving DecidableEq

/-- The release payload fields read by the extractor: the `variables` array
(field `vars`; `variables` is reserved in Lean) and the optional `folder.path`. -/
structure XRelease where
  vars : List XVar
  folderPath : Option String
deriving DecidableEq

/-- The XLR world: the release GET keyed by release id, and the folder GET
keyed by folder id (returning the folder `title`). -/
structure XWorld where
  release : String → Fetch XRelease
  folder : String → Fetch String

/-- The result dict of `extract_spk_from_release`. -/
structure SpkResult where
  spk : Option String
  folder_id : Option String
  org_name : Option String
deriving DecidableEq

/-- The all-`None` result built by the `except` handler. -/
def allNullSpk : SpkResult := ⟨none, none, none⟩

/-- `re.search(r'([A-Z]{5}[-]{3}[A-Z]{2})', s)` anchored at the head. -/
def orgMatchAt (cs : List Char) : Option (List Char) :=
  let a := cs.take 5
  let b := (cs.drop 5).take 3
  let c := (cs.drop 8).take 2
  if a.length = 5 && a.all (fun ch => 'A' ≤ ch && ch ≤ 'Z') && b = ['-', '-', '-'] &&
      c.length = 2 && c.all (fun ch => 'A' ≤ ch && ch ≤ 'Z') then
    some (a ++ b ++ c)
  else none

/-- `re.search(r'([A-Z]{5}[-]{3}[A-Z]{2})', s)`: leftmost match. -/
def searchOrg : List Char → Option (List Char)
  | [] => none
  | c :: rest => (orgMatchAt (c :: rest)).orElse (fun _ => searchOrg rest)

/-- `re.search(r'SPK(\d+)', s)` anchored at the head, returning `"SPK" + digits`. -/
def spkNumAt (cs : List Char) : Option (List Char) :=
  if cs.take 3 = "SPK".data then
    let run := (cs.drop 3).takeWhile Char.isDigit
    if run.isEmpty then none else some ("SPK".data ++ run)
  else none

/-- `re.search(r'SPK(\d+)', s)`: leftmost match. -/
def searchSpkNum : List Char → Option (List Char)
  | [] => none
  | c :: rest => (spkNumAt (c :: rest)).orElse (fun _ => searchSpkNum rest)

/-- `re.search(r'([A-Z]{3,})', s)` anchored at the head: a run of at least
three uppercase letters. -/
def upper3At (cs : List Char) : Option (List Char) :=
  let run := cs.takeWhile (fun ch => 'A' ≤ ch && ch ≤ 'Z')
  if 3 ≤ run.length then some run else none

/-- `re.search(r'([A-Z]{3,})', s)`: leftmost match. -/
def searchUpper3 : List Char → Option (List Char)
  | [] => none
  | c :: rest => (upper3At (c :: rest)).orElse (fun _ => searchUpper3 rest)

/-- `re.split(r'[/_\-\s]', s)`, keeping empty segments. -/
def splitClass (s : String) : List String :=
  (splitOnP (fun c => c = '/' || c = '_' || c = '-' || isPyWs c) s.data).map (⟨·⟩)

/-- Organization from the first `releaseConfigRepoLocation` variable
(`api_client.py` lines 193-218). -/
def orgFromRepoLocation (vars : List XVar) : Option String :=
  match vars.find? (fun v => v.key = "releaseConfigRepoLocation") with
  | none => none
  | some v =>
    let repo_location := v.value
    if repo_location ≠ "" && pyContains repo_location "@" then
      let parts := pySplitChar repo_location '@'
      if 2 ≤ parts.length then
        let repo_name := parts.getD 1 ""
        let repo_parts := pySplitChar repo_name '_'
        if 3 ≤ repo_parts.length then
          let folder_name := String.intercalate "_" (repo_parts.drop (repo_parts.length - 2))
          let formatted_org := pyUpper (pyReplace folder_name "_" "---")
          if formatted_org ≠ "" then some formatted_org else none
        else none
      else none
    else none

/-- State threaded through the `folderID` loop (`api_client.py` lines 221-247):
the `folder_id` and `org_name` entries of the result dict plus a flag recording
that the inner `except` handler caught an exception. -/
structure FolderScan where
  folder_id : Option String
  org_name : Option String
  exnCaught : Bool
deriving DecidableEq

/-- The `folderID` loop: every variable with key `folderID` (the loop has no
`break`) updates `folder_id` and attempts the folder lookup, whose regex match
on the folder title may set `org_name`; an exception in the lookup is caught
and logged. -/
def folderIdLoop (w : XWorld) (vars : List XVar) : FolderScan :=
  vars.foldl
    (fun st v =>
      if v.key = "folderID" then
        if v.value ≠ "" then
          let st1 : FolderScan := { st with folder_id := some v.value }
          match w.folder v.value with
          | .ok folder_title =>
            match searchOrg folder_title.data with
            | some l =>
              if (⟨l⟩ : String) ≠ "" then { st1 with org_name := some ⟨l⟩ } else st1
            | none => st1
          | .httpFail => st1
          | .raise => { st1 with exnCaught := true }
        else st
      else st)
    ⟨none, none, false⟩

/-- SPK from the first `releaseComponents` variable's first whitespace token
(`api_client.py` lines 249-264). -/
def spkFromReleaseComponents (vars : List XVar) : Option String :=
  match vars.find? (fun v => v.key = "releaseComponents") with
  | none => none
  | some v =>
    if v.value ≠ "" then
      let parts := pySplitWs v.value
      if parts ≠ [] then
        let spk_name := pyStrip (parts.headD "")
        if spk_name ≠ "" && spk_name ≠ "SPK_PROD" then some spk_name else none
      else none
    else none

/-- SPK from the first `releaseName` variable: the first all-uppercase token of
length at least three outside the denylist (`api_client.py` lines 266-283). -/
def spkFromReleaseName (vars : List XVar) : Option String :=
  match vars.find? (fun v => v.key = "releaseName") with
  | none => none
  | some v =>
    if v.value ≠ "" then
      (splitClass v.value).find?
        (fun part => pyIsUpper part && 3 ≤ part.length && !(["WMTO", "DEVOPS"].contains part))
    else none

/-- Organization from the release's own `folder.path`
(`api_client.py` lines 286-294). -/
def orgFromFolderPath : Option String → Option String
  | none => none
  | some path =>
    match searchOrg path.data with
    | some l => if (⟨l⟩ : String) ≠ "" then some (⟨l⟩ : String) else none
    | none => none

/-- SPK fallback from the raw URL: `SPK<digits>`, else the first all-uppercase
`≥3`-character split token, else any run of three or more uppercase letters
(`api_client.py` lines 296-323). -/
def spkFromUrl (release_url : String) : Option String :=
  match searchSpkNum release_url.data with
  | some l => some (⟨l⟩ : String)
  | none =>
    match (splitClass release_url).find? (fun part => pyIsUpper part && 3 ≤ part.length) with
    | some part => some part
    | none =>
      match searchUpper3 release_url.data with
      | some l => if (⟨l⟩ : String) ≠ "" then some (⟨l⟩ : String) else none
      | none => none

/-- Organization fallback from the raw URL (`api_client.py` lines 326-332). -/
def orgFromUrl (release_url : String) : Option String :=
  match searchOrg release_url.data with
  | some l => if (⟨l⟩ : String) ≠ "" then some (⟨l⟩ : String) else none
  | none => none

/-- `XLRClient.extract_spk_from_release`, instrumented: the second component
records whether some exception was raised (and caught) during extraction.  An
exception of the release GET reaches the outer `except` handler, which returns
the all-`None` result; an exception of the nested folder GET is caught by the
inner handler and extraction continues. -/
def extract_spk_from_release (w : XWorld) (release_url : String) : SpkResult × Bool :=
  let release_id := extract_release_id_from_url release_url
  match w.release release_id with
  | .raise => (allNullSpk, true)
  | .httpFail =>
    let spk := spkFromUrl release_url
    let org := orgFromUrl release_url
    (⟨spk, none, org⟩, false)
  | .ok release_data =>
    let org1 := orgFromRepoLocation release_data.vars
    let fs : FolderScan :=
      if org1 = none then folderIdLoop w release_data.vars else ⟨none, org1, false⟩
    let spk1 := spkFromReleaseComponents release_data.vars
    let spk2 := if spk1 = none then spkFromReleaseName release_data.vars else spk1
    let org2 := if fs.org_name = none then orgFromFolderPath release_data.folderPath else fs.org_name
    let spk3 := if spk2 = none then spkFromUrl release_url else spk2
    let org3 := if org2 = none then orgFromUrl release_url else org2
    (⟨spk3, fs.folder_id, org3⟩, fs.exnCaught)

/-- Counterexample world for C7: the release GET succeeds with a `folderID`
variable and a `releaseComponents` variable, but every folder GET raises. -/
def c7World : XWorld :=
  ⟨fun _ => .ok ⟨[⟨"folderID", "F1"⟩, ⟨"releaseComponents", "CODECTS svcA"⟩], none⟩,
   fun _ => .raise⟩

/-! ## Ansible Tower client: inventory lookup (`api_client.py` lines 576-690) -/

/-- One group record (id and name are the fields the code reads). -/
structure TwGroup where
  id : Nat
  name : String
deriving DecidableEq

/-- One inventory record of the `/api/v2/inventories/` listing. -/
structure TInv where
  id : Nat
  name : String
deriving DecidableEq

/-- An inventory retained by `get_inventories_by_spk`, with its eagerly
fetched group list. -/
structure TInvWithGroups where
  id : Nat
  name : String
  groups : List TwGroup
deriving DecidableEq

/-- The Tower world for inventory lookup: the inventory listing (`none` for a
non-200 response) and the per-inventory groups fetch (`none` for a non-200
response, which makes the code `continue`, dropping the inventory). -/
structure InvWorld where
  inventoryList : Option (List TInv)
  groupsOf : Nat → Option (List TwGroup)

/-- The org filter of both passes: `if org_name and org_name not in
inventory_name: continue`.  A falsy (`None`/empty) org never filters. -/
def orgSkip (org_name : Option String) (inventory_name : String) : Bool :=
  match org_name with
  | none => false
  | some o => o ≠ "" && !pyContains inventory_name o

/-- One iteration of either matching loop of `get_inventories_by_spk`: keep
the inventory when it satisfies `matchCond`, survives the org filter and its
groups fetch succeeds; otherwise `continue`. -/
def inventoryStep (w : InvWorld) (matchCond : TInv → Bool) (org_name : Option String)
    (acc : List TInvWithGroups) (inv : TInv) : List TInvWithGroups :=
  if matchCond inv then
    if orgSkip org_name inv.name then acc
    else
      match w.groupsOf inv.id with
      | none => acc
      | some gs => acc ++ [⟨inv.id, inv.name, gs⟩]
  else acc

/-- One pass of `get_inventories_by_spk`: keep every inventory satisfying
`matchCond` and surviving the org filter whose groups fetch succeeds. -/
def inventoryPass (w : InvWorld) (matchCond : TInv → Bool) (org_name : Option String)
    (invs : List TInv) : List TInvWithGroups :=
  invs.foldl (inventoryStep w matchCond org_name) []

/-- `AnsibleTowerClient.get_inventories_by_spk`: guard on a falsy SPK, fetch
the inventory listing, run the exact `"<spk>_PROD"`-substring pass, and when it
retains nothing run the case-insensitive SPK-substring pass. -/
def get_inventories_by_spk (w : InvWorld) (spk : Option String) (org_name : Option String) :
    List TInvWithGroups :=
  match spk with
  | none => []
  | some s =>
    if s = "" then []
    else
      match w.inventoryList with
      | none => []
      | some invs =>
        let exact := inventoryPass w (fun inv => pyContains inv.name (s ++ "_PROD")) org_name invs
        if exact.isEmpty then
          inventoryPass w (fun inv => pyContains (pyLower inv.name) (pyLower s)) org_name invs
        else exact

/-- Counterexample world for C8: exactly one inventory, whose name matches
`"SPK1_PROD"` exactly; the org tag appears only in one of its group names. -/
def c8World : InvWorld := ⟨some [⟨1, "SPK1_PROD"⟩], fun _ => some [⟨10, "VGPDR---BH_GRP"⟩]⟩

/-! ## Ansible Tower client: server resolution (`api_client.py` lines 692-825) -/

/-- One host record of a group's host listing. -/
structure TwHost where
  id : Nat
  name : String
deriving DecidableEq

/-- The host-detail payload fields the code reads: the parsed `variables` dict
(a parse failure yields the empty dict) and the `enabled` flag. -/
structure TwHostDetail where
  vars : List (String × String)
  enabled : Bool
deriving DecidableEq

/-- The Tower world for server resolution: the per-group hosts fetch and the
per-host detail fetch (`none` for a non-200 response). -/
structure TowerWorld where
  hostsOf : Nat → Option (List TwHost)
  detailOf : Nat → Option TwHostDetail

/-- One row of the final export table. -/
structure ServerRecord where
  server_name : String
  group_name : String
  component_name : String
  environment : String
  os_info : String
  enabled : Bool
deriving DecidableEq

/-- `environment_variants`: the uppercased environment plus `PRODUCTION` /
`DEVELOPMENT` equivalents. -/
def environment_variants (environment : String) : List String :=
  [pyUpper environment] ++
    (if pyUpper environment = "PROD" then ["PRODUCTION"] else []) ++
    (if pyUpper environment = "DEV" then ["DEVELOPMENT"] else [])

/-- A group is a candidate when its name case-insensitively contains the
component name and one of the environment variants. -/
def groupMatches (component_name environment group_name : String) : Bool :=
  pyContains (pyLower group_name) (pyLower component_name) &&
    (environment_variants environment).any (fun v => pyContains (pyLower group_name) (pyLower v))

/-- OS info from the host-detail variables: `ansible_distribution` and
`ansible_distribution_version`, defaulting to `"Unknown"` when both absent. -/
def hostOsInfo (d : TwHostDetail) : String :=
  let os_name := (List.lookup "ansible_distribution" d.vars).getD ""
  let os_version := (List.lookup "ansible_distribution_version" d.vars).getD ""
  let os_info := pyStrip (os_name ++ " " ++ os_version)
  if os_info = "" then "Unknown" else os_info

/-- Processing of one host (`api_client.py` lines 744-818): skip duplicates by
server name; a failed (non-200) detail fetch still emits the host with
`os_info = "Unknown"` and `enabled = True`. -/
def processHost (w : TowerWorld) (component_name environment group_name : String)
    (servers : List ServerRecord) (h : TwHost) : List ServerRecord :=
  if h.name ∈ servers.map (fun s => s.server_name) then servers
  else
    match w.detailOf h.id with
    | none =>
      servers ++ [⟨h.name, group_name, component_name, environment, "Unknown", true⟩]
    | some d =>
      servers ++ [⟨h.name, group_name, component_name, environment, hostOsInfo d, d.enabled⟩]

/-- Processing of one group: only candidate groups are scanned; a failed hosts
fetch makes the code `continue`. -/
def processGroup (w : TowerWorld) (component_name environment : String)
    (servers : List ServerRecord) (g : TwGroup) : List ServerRecord :=
  if groupMatches component_name environment g.name then
    match w.hostsOf g.id with
    | none => servers
    | some hosts => hosts.foldl (processHost w component_name environment g.name) servers
  else servers

/-- Processing of one inventory: scan each of its groups in order. -/
def processInventory (w : TowerWorld) (component_name environment : String)
    (servers : List ServerRecord) (inv : TInvWithGroups) : List ServerRecord :=
  inv.groups.foldl (processGroup w component_name environment) servers

/-- `AnsibleTowerClient.get_servers_for_component`: guard on falsy arguments,
then scan every group of every inventory. -/
def get_servers_for_component (w : TowerWorld) (component_name environment : String)
    (inventories : List TInvWithGroups) : List ServerRecord :=
  if component_name = "" ∨ environment = "" ∨ inventories = [] then []
  else inventories.foldl (processInventory w component_name environment) []

/-- Concrete world for the C9 witness: one candidate group whose single host's
detail fetch returns a non-200 status (every detail fetch fails). -/
def c9World : TowerWorld :=
  ⟨fun n => if n = 5 then some [⟨100, "host1"⟩] else none, fun _ => none⟩

/-! ## Discovery pipeline, `ResolveServers` progress loop
(`app.py` lines 322-364, inside `fetch_data.generate`) -/

/-- One component with its attached environment list, as consumed by step 4 of
the pipeline. -/
structure CompEnv where
  name : String
  environments : List String
deriving DecidableEq

/-- The `total` computed by the code:
`len(components_with_env) * len([env for comp in components_with_env for env in
comp['environments']])`. -/
def step4Total (cwe : List CompEnv) : Nat :=
  cwe.length * (cwe.flatMap (fun c => c.environments)).length

/-- The number of `(component, environment)` pairs the loop actually
completes. -/
def step4Pairs (cwe : List CompEnv) : Nat :=
  (cwe.flatMap (fun c => c.environments)).length

/-- The `completed` counts at which the step-4 loop emits a progress event:
after each pair, an event is emitted iff `completed % 5 == 0 or completed ==
total`. -/
def step4Events (cwe : List CompEnv) : List Nat :=
  let total := step4Total cwe
  (cwe.foldl
      (fun (st : Nat × List Nat) comp =>
        comp.environments.foldl
          (fun (st : Nat × List Nat) _ =>
            let completed := st.1 + 1
            if completed % 5 = 0 ∨ completed = total then (completed, st.2 ++ [completed])
            else (completed, st.2))
          st)
      (0, [])).2

/-! ## Helper lemmas -/

/-- A successful association-list lookup returns one of the stored values. -/
theorem lookup_mem_snd {α β : Type} [BEq α] {l : List (α × β)} {k : α} {v : β}
    (h : List.lookup k l = some v) : v ∈ l.map Prod.snd := by
  induction l with
  | nil => simp [List.lookup] at h
  | cons p t ih =>
    simp only [List.lookup] at h
    split at h
    · simp only [Option.some.injEq] at h
      subst h
      simp
    · simp only [List.map_cons, List.mem_cons]
      exact Or.inr (ih h)

/-! ## Claims C1-C5: descriptor synthesis and classification -/

/-- C1: for every input environment-token list and every platform flag, the
descriptor produced by `submit_details` has `environments` of the same length
and order as the input list, and `integratedReleaseEnvironments` is exactly the
list of the `environmentName` fields of `environments` — index by index the two
coincide, both derived identically from the i-th input token and the platform
flag. -/
theorem submit_details_env_alignment (SPK rd : String) (comps envs : List String)
    (platform : String) (h : 2 ≤ (pySplitChar rd '.').length) :
    ∃ d, submit_details SPK rd comps envs platform = .ok d ∧
      d.environments.length = envs.length ∧
      d.integratedReleaseEnvironments.length = envs.length ∧
      d.integratedReleaseEnvironments = d.environments.map EnvEntry.environmentName ∧
      ∀ i, i < envs.length →
        d.integratedReleaseEnvironments.getD i "" =
          (d.environments.getD i ⟨"", ""⟩).environmentName := by
  obtain ⟨m, hm⟩ : ∃ m, (pySplitChar rd '.')[1]? = some m :=
    ⟨_, List.getElem?_eq_getElem (by omega)⟩
  simp only [submit_details, hm]
  refine ⟨_, rfl, by simp, by simp, by simp [List.map_map], ?_⟩
  intro i hi
  simp [List.getD_eq_getElem?_getD, List.getElem?_map, List.getElem?_eq_getElem hi]

/-- Witness for C1 at a concrete input. -/
theorem submit_details_env_alignment_witness :
    2 ≤ (pySplitChar "2025.03.15" '.').length ∧
      ∃ d, submit_details "CODECTS" "2025.03.15" ["svcA"] ["DEV", "PRODA"] "Datical" = .ok d ∧
        d.environments.length = (["DEV", "PRODA"] : List String).length ∧
        d.integratedReleaseEnvironments.length = (["DEV", "PRODA"] : List String).length ∧
        d.integratedReleaseEnvironments = d.environments.map EnvEntry.environmentName ∧
        ∀ i, i < (["DEV", "PRODA"] : List String).length →
          d.integratedReleaseEnvironments.getD i "" =
            (d.environments.getD i ⟨"", ""⟩).environmentName :=
  ⟨by decide,
    submit_details_env_alignment "CODECTS" "2025.03.15" ["svcA"] ["DEV", "PRODA"] "Datical"
      (by decide)⟩

/-- C2: the environment classifier is total — for every input string it
returns one of the four phase strings, never an error; every token whose
stripped form is not a key of the table yields the unknown phase; and the
documented table is case-insensitive-safe: any two keys that agree up to case
map to the same phase. -/
theorem determine_phase_type_total_unknown :
    (∀ s : String, determine_phase_type s = "DEV" ∨ determine_phase_type s = "LLE" ∨
        determine_phase_type s = "PROD" ∨ determine_phase_type s = "Unknown") ∧
    (∀ s : String, List.lookup (pyStrip s) environment_mapping = none →
        determine_phase_type s = "Unknown") ∧
    (∀ p1 ∈ environment_mapping, ∀ p2 ∈ environment_mapping,
        pyLower p1.1 = pyLower p2.1 → p1.2 = p2.2) := by
  refine ⟨?_, ?_, by decide⟩
  · intro s
    unfold determine_phase_type
    cases h : List.lookup (pyStrip s) environment_mapping with
    | none => simp
    | some v =>
      have hv := lookup_mem_snd h
      have hsub : ∀ x ∈ environment_mapping.map Prod.snd,
          x = "DEV" ∨ x = "LLE" ∨ x = "PROD" ∨ x = "Unknown" := by decide
      simpa using hsub v hv
  · intro s h
    simp [determine_phase_type, h]

/-- Witness for C2 at concrete inputs. -/
theorem determine_phase_type_total_unknown_witness :
    List.lookup (pyStrip "banana") environment_mapping = none ∧
      determine_phase_type "banana" = "Unknown" :=
  ⟨by decide, determine_phase_type_total_unknown.2.1 "banana" (by decide)⟩

/-- C3: a `releaseDate` missing its second `.`-delimited segment makes the
descriptor construction stop immediately with the index error raised by
`split(".")[1]` — the error the spec's taxonomy calls `InputFormatError`,
signalled to the caller as a propagating exception — while for every
well-formed date the construction succeeds and cannot fail on its own. -/
theorem submit_details_malformed_date :
    (∀ (SPK rd : String) (comps envs : List String) (platform : String),
        (pySplitChar rd '.').length < 2 →
        submit_details SPK rd comps envs platform = .error .indexError) ∧
    (∀ (SPK rd : String) (comps envs : List String) (platform : String),
        2 ≤ (pySplitChar rd '.').length →
        ∃ d, submit_details SPK rd comps envs platform = .ok d) := by
  constructor
  · intro SPK rd comps envs platform h
    have hn : (pySplitChar rd '.')[1]? = none := List.getElem?_eq_none (by omega)
    simp [submit_details, hn]
  · intro SPK rd comps envs platform h
    obtain ⟨m, hm⟩ : ∃ m, (pySplitChar rd '.')[1]? = some m :=
      ⟨_, List.getElem?_eq_getElem (by omega)⟩
    simp only [submit_details, hm]
    exact ⟨_, rfl⟩

/-- Witness for C3 at concrete inputs. -/
theorem submit_details_malformed_date_witness :
    ((pySplitChar "2025" '.').length < 2 ∧
      submit_details "CODECTS" "2025" ["svcA"] ["DEV"] "Datical" = .error .indexError) ∧
    (2 ≤ (pySplitChar "2025.03.15" '.').length ∧
      ∃ d, submit_details "CODECTS" "2025.03.15" ["svcA"] ["DEV"] "Datical" = .ok d) :=
  ⟨⟨by decide, submit_details_malformed_date.1 "CODECTS" "2025" ["svcA"] ["DEV"] "Datical"
      (by decide)⟩,
   ⟨by decide, submit_details_malformed_date.2 "CODECTS" "2025.03.15" ["svcA"] ["DEV"] "Datical"
      (by decide)⟩⟩

/-- C4: each component name is trimmed and lower-cased, and each
`releaseComponents` entry is `"<spk> <component> <releaseDate>:1"` under the
`"Datical"` platform flag and the literal-placeholder form
`"<spk> <component> ${releaseBranch}:1"` otherwise; at the Scenario A input the
result is exactly the two expected strings. -/
theorem submit_details_release_components (SPK rd : String) (comps envs : List String)
    (platform : String) (h : 2 ≤ (pySplitChar rd '.').length) :
    Except.map Descriptor.releaseComponents (submit_details SPK rd comps envs platform) =
      .ok (comps.map (fun c =>
        if platform = "Datical" then SPK ++ " " ++ pyLower (pyStrip c) ++ " " ++ rd ++ ":1"
        else SPK ++ " " ++ pyLower (pyStrip c) ++ " $\x7breleaseBranch\x7d:1")) ∧
    Except.map Descriptor.releaseComponents
        (submit_details "CODECTS" "2025.03.15" ["svcA", "svcB"] ["DEV", "PRODA"] "Datical") =
      .ok ["CODECTS svca 2025.03.15:1", "CODECTS svcb 2025.03.15:1"] := by
  constructor
  · obtain ⟨m, hm⟩ : ∃ m, (pySplitChar rd '.')[1]? = some m :=
      ⟨_, List.getElem?_eq_getElem (by omega)⟩
    simp only [submit_details, hm]
    by_cases hp : platform = "Datical" <;> simp [hp, Except.map]
  · decide

/-- Witness for C4 at a concrete input. -/
theorem submit_details_release_components_witness :
    2 ≤ (pySplitChar "2025.03.15" '.').length ∧
      (Except.map Descriptor.releaseComponents
          (submit_details "CODECTS" "2025.03.15" ["svcA", "svcB"] ["DEV", "PRODA"] "Datical") =
        .ok ((["svcA", "svcB"] : List String).map (fun c =>
          if ("Datical" : String) = "Datical" then
            "CODECTS" ++ " " ++ pyLower (pyStrip c) ++ " " ++ "2025.03.15" ++ ":1"
          else "CODECTS" ++ " " ++ pyLower (pyStrip c) ++ " $\x7breleaseBranch\x7d:1")) ∧
      Except.map Descriptor.releaseComponents
          (submit_details "CODECTS" "2025.03.15" ["svcA", "svcB"] ["DEV", "PRODA"] "Datical") =
        .ok ["CODECTS svca 2025.03.15:1", "CODECTS svcb 2025.03.15:1"]) :=
  ⟨by decide,
    submit_details_release_components "CODECTS" "2025.03.15" ["svcA", "svcB"] ["DEV", "PRODA"]
      "Datical" (by decide)⟩

/-- C5: when the month segment of `releaseDate` is not one of the twelve
mapped values, the month abbreviation resolves to the empty string rather than
raising — `get_month_abbreviation "13" = ""` — and under the `"Datical"`
platform flag every environment display name becomes `"<token>FOR<YY>"` with an
empty month part. -/
theorem submit_details_unmapped_month (SPK rd : String) (comps envs : List String) (m : String)
    (hm : (pySplitChar rd '.')[1]? = some m)
    (hnone : List.lookup m month_mappings = none) :
    get_month_abbreviation "13" = "" ∧
    ∃ d, submit_details SPK rd comps envs "Datical" = .ok d ∧
      d.environments.map EnvEntry.environmentName =
        envs.map (fun env =>
          pyStrip env ++ "FOR" ++ pyLast2 ((pySplitChar rd '.').headD "")) := by
  refine ⟨by decide, ?_⟩
  simp only [submit_details, hm]
  refine ⟨_, rfl, ?_⟩
  have habbr : get_month_abbreviation m = "" := by
    simp [get_month_abbreviation, hnone]
  simp [habbr, List.map_map]

/-- Witness for C5 at the boundary input `releaseDate = "2025.13.01"`. -/
theorem submit_details_unmapped_month_witness :
    ((pySplitChar "2025.13.01" '.')[1]? = some "13" ∧
      List.lookup "13" month_mappings = none) ∧
    (get_month_abbreviation "13" = "" ∧
      ∃ d, submit_details "CODECTS" "2025.13.01" ["svcA"] ["DEV", "PRODA"] "Datical" = .ok d ∧
        d.environments.map EnvEntry.environmentName =
          (["DEV", "PRODA"] : List String).map (fun env =>
            pyStrip env ++ "FOR" ++ pyLast2 ((pySplitChar "2025.13.01" '.').headD ""))) :=
  ⟨⟨by decide, by decide⟩,
    submit_details_unmapped_month "CODECTS" "2025.13.01" ["svcA"] ["DEV", "PRODA"] "13"
      (by decide) (by decide)⟩

/-! ## Claim C6: release-id extraction sentinel -/

/-- An anchored `Release<alnum>` match starts with `Release`. -/
theorem matchReleaseAt_release {cs l : List Char} (h : matchReleaseAt cs = some l) :
    "Release".data.isPrefixOf l = true := by
  simp only [matchReleaseAt] at h
  split at h
  · split at h
    · exact absurd h (by simp)
    · obtain rfl := Option.some.inj h
      simp [List.isPrefixOf_iff_prefix]
  · exact absurd h (by simp)

/-- Every successful regex search for `Release<alnum>` returns a string
starting with `Release`. -/
theorem searchRelease_release : ∀ {cs l : List Char}, searchRelease cs = some l →
    "Release".data.isPrefixOf l = true := by
  intro cs
  induction cs with
  | nil => intro l h; simp [searchRelease] at h
  | cons c rest ih =>
    intro l h
    rw [searchRelease] at h
    cases hm : matchReleaseAt (c :: rest) with
    | some l2 =>
      rw [hm] at h
      simp only [Option.orElse] at h
      obtain rfl := Option.some.inj h
      exact matchReleaseAt_release hm
    | none =>
      rw [hm] at h
      simp only [Option.orElse] at h
      exact ih h

/-- Whatever `pickFromPart` returns starts with `Release`. -/
theorem pickFromPart_release {part s : String} (h : pickFromPart part = some s) :
    pyStartsWith s "Release" = true := by
  unfold pickFromPart at h
  split at h
  · split at h
    · simpa using List.find?_some h
    · split at h
      · obtain rfl := Option.some.inj h
        assumption
      · exact absurd h (by simp)
  · exact absurd h (by simp)

/-- Whatever either segment walk returns starts with `Release`. -/
theorem findSome?_pick_release {l : List String} {s : String}
    (h : l.findSome? pickFromPart = some s) : pyStartsWith s "Release" = true := by
  obtain ⟨part, _, hp⟩ := List.exists_of_findSome?_eq_some h
  exact pickFromPart_release hp

/-- Whatever the first approach returns starts with `Release`. -/
theorem approach1_release {u rid : String} (h : approach1 u = some rid) :
    pyStartsWith rid "Release" = true := by
  unfold approach1 at h
  cases hs : searchRelease u.data with
  | none => rw [hs] at h; exact absurd h (by simp)
  | some l =>
    rw [hs] at h
    simp only [Option.map] at h
    obtain rfl := Option.some.inj h
    exact searchRelease_release hs

/-- Whatever the second approach returns starts with `Release`. -/
theorem approach2_release {u rid : String} (h : approach2 u = some rid) :
    pyStartsWith rid "Release" = true := by
  unfold approach2 at h
  split at h
  · exact findSome?_pick_release h
  · exact absurd h (by simp)

/-- Whatever the third approach returns starts with `Release`. -/
theorem approach3_release {u rid : String} (h : approach3 u = some rid) :
    pyStartsWith rid "Release" = true := by
  simp only [approach3] at h
  exact findSome?_pick_release h

/-- Unfolding of `extract_release_id_from_url` with the decoded URL inlined. -/
theorem extractReleaseIdUnfold (release_url : String) :
    extract_release_id_from_url release_url =
      (match approach1 (pyReplace (pyReplace release_url "%23" "#") "%2F" "/") with
      | some rid => rid
      | none =>
        match approach2 (pyReplace (pyReplace release_url "%23" "#") "%2F" "/") with
        | some rid => rid
        | none =>
          match approach3 (pyReplace (pyReplace release_url "%23" "#") "%2F" "/") with
          | some rid => rid
          | none => "table") := rfl

/-- C6: for every release-reference URL, either none of the three layered
extraction strategies matches on the decoded URL and
`extract_release_id_from_url` returns exactly the literal sentinel `"table"`,
or some strategy matches and the returned key starts with `"Release"`. -/
theorem extract_release_id_sentinel_or_release (release_url : String) :
    (approach1 (pyReplace (pyReplace release_url "%23" "#") "%2F" "/") = none ∧
      approach2 (pyReplace (pyReplace release_url "%23" "#") "%2F" "/") = none ∧
      approach3 (pyReplace (pyReplace release_url "%23" "#") "%2F" "/") = none ∧
      extract_release_id_from_url release_url = "table") ∨
    pyStartsWith (extract_release_id_from_url release_url) "Release" = true := by
  rw [extractReleaseIdUnfold]
  cases h1 : approach1 (pyReplace (pyReplace release_url "%23" "#") "%2F" "/") with
  | some rid =>
    right
    simp only [h1]
    exact approach1_release h1
  | none =>
    cases h2 : approach2 (pyReplace (pyReplace release_url "%23" "#") "%2F" "/") with
    | some rid =>
      right
      simp only [h1, h2]
      exact approach2_release h2
    | none =>
      cases h3 : approach3 (pyReplace (pyReplace release_url "%23" "#") "%2F" "/") with
      | some rid =>
        right
        simp only [h1, h2, h3]
        exact approach3_release h3
      | none =>
        exact Or.inl ⟨rfl, rfl, rfl, rfl⟩

/-! ## Claim C7: exception handling of `extract_spk_from_release` -/

/-- Counterexample for C7 as stated: at this input an HTTP exception is raised
(and caught) during extraction — the nested folder GET raises — yet the result
is not all-null: the SPK and the folder id are populated.  The claim "any HTTP
or parsing exception during extraction yields all three fields null" is
therefore false on the code. -/
theorem extract_spk_inner_exception_not_null :
    (extract_spk_from_release c7World
        "https://host/#/releases/Release123/relationships/table").2 = true ∧
    (extract_spk_from_release c7World
        "https://host/#/releases/Release123/relationships/table").1 =
      ⟨some "CODECTS", some "F1", none⟩ ∧
    (extract_spk_from_release c7World
        "https://host/#/releases/Release123/relationships/table").1 ≠ allNullSpk := by
  refine ⟨?_, ?_, ?_⟩ <;> decide

/-- C7 (amended): `extract_spk_from_release` never raises to the caller; an
exception that reaches the outer handler — one raised by the release GET —
yields the all-null result, while an exception of the nested folder-details
GET is caught by the inner handler and extraction continues. -/
theorem extract_spk_outer_exception_all_null (w : XWorld) (release_url : String)
    (h : w.release (extract_release_id_from_url release_url) = .raise) :
    extract_spk_from_release w release_url = (allNullSpk, true) := by
  simp only [extract_spk_from_release, h]

/-- Witness for the amended C7 at a concrete input. -/
theorem extract_spk_outer_exception_all_null_witness :
    (XWorld.release ⟨fun _ => Fetch.raise, fun _ => Fetch.raise⟩
        (extract_release_id_from_url "u") = .raise) ∧
      extract_spk_from_release ⟨fun _ => Fetch.raise, fun _ => Fetch.raise⟩ "u" =
        (allNullSpk, true) :=
  ⟨rfl, extract_spk_outer_exception_all_null ⟨fun _ => Fetch.raise, fun _ => Fetch.raise⟩ "u" rfl⟩

/-! ## Claim C8: inventory lookup org filtering -/

/-- Counterexample for C8 as stated: the single inventory is an exact
`"<spk>_PROD"` match and the org tag appears in one of its group names, so the
claim requires it to be kept (and, zero exact matches remaining after
filtering, requires the fall-back to the unfiltered exact-match set); the code
instead consults only the inventory name in the org filter, falls through to
partial matching with the same filter, and returns the empty list. -/
theorem get_inventories_group_tag_dropped :
    pyContains "SPK1_PROD" ("SPK1" ++ "_PROD") = true ∧
    (c8World.groupsOf 1).map (fun gs => gs.map TwGroup.name) = some ["VGPDR---BH_GRP"] ∧
    pyContains "VGPDR---BH_GRP" "VGPDR---BH" = true ∧
    get_inventories_by_spk c8World (some "SPK1") (some "VGPDR---BH") = [] := by
  refine ⟨?_, ?_, ?_, ?_⟩ <;> decide

/-- One step of either matching loop keeps the org-containment invariant: a
non-empty org tag lets an inventory through only when the tag occurs in the
inventory's name. -/
theorem inventoryStep_org (w : InvWorld) (mc : TInv → Bool) (o : String)
    (acc : List TInvWithGroups) (inv : TInv) (ho : o ≠ "")
    (hacc : ∀ x ∈ acc, pyContains x.name o = true) :
    ∀ x ∈ inventoryStep w mc (some o) acc inv, pyContains x.name o = true := by
  intro x hx
  unfold inventoryStep at hx
  split at hx
  · split at hx
    · exact hacc x hx
    · rename_i hskip
      split at hx
      · exact hacc x hx
      · rcases List.mem_append.mp hx with hxa | hxe
        · exact hacc x hxa
        · obtain rfl := List.mem_singleton.mp hxe
          simp [orgSkip, ho] at hskip
          exact hskip
  · exact hacc x hx

/-- Either full matching pass keeps only inventories whose name contains a
non-empty org tag. -/
theorem inventoryPass_org (w : InvWorld) (mc : TInv → Bool) (o : String) (invs : List TInv)
    (ho : o ≠ "") : ∀ x ∈ inventoryPass w mc (some o) invs, pyContains x.name o = true := by
  unfold inventoryPass
  have haux : ∀ (l : List TInv) (acc : List TInvWithGroups),
      (∀ x ∈ acc, pyContains x.name o = true) →
      ∀ x ∈ l.foldl (inventoryStep w mc (some o)) acc, pyContains x.name o = true := by
    intro l
    induction l with
    | nil =>
      intro acc hacc x hx
      rw [List.foldl_nil] at hx
      exact hacc x hx
    | cons inv rest ih =>
      intro acc hacc x hx
      rw [List.foldl_cons] at hx
      exact ih _ (inventoryStep_org w mc o acc inv ho hacc) x hx
  exact haux invs [] (by simp)

/-- C8 (amended): the org filter of `get_inventories_by_spk` consults only the
inventory name — every inventory kept by either pass contains the (non-empty)
org tag in its name — and when the org filter empties the exact-match pass the
code falls through to case-insensitive partial matching with the same filter,
not to the unfiltered exact-match set; the Scenario C instance (two exact
matches, one carrying the tag in its name) returns exactly the single filtered
inventory. -/
theorem get_inventories_org_filter_and_scenario :
    (∀ (w : InvWorld) (s o : String), o ≠ "" →
        ∀ x ∈ get_inventories_by_spk w (some s) (some o), pyContains x.name o = true) ∧
    get_inventories_by_spk
        ⟨some [⟨1, "VGPDR---BH_SPK1_PROD"⟩, ⟨2, "OTHER_SPK1_PROD"⟩], fun _ => some []⟩
        (some "SPK1") (some "VGPDR---BH") =
      [⟨1, "VGPDR---BH_SPK1_PROD", []⟩] := by
  constructor
  · intro w s o ho x hx
    simp only [get_inventories_by_spk] at hx
    split at hx
    · simp at hx
    · cases hl : w.inventoryList with
      | none => rw [hl] at hx; simp at hx
      | some invs =>
        rw [hl] at hx
        split at hx
        · simp at hx
        · split at hx
          · exact inventoryPass_org w _ o _ ho x hx
          · exact inventoryPass_org w _ o _ ho x hx
  · decide

/-- Witness for the amended C8 at a concrete input. -/
theorem get_inventories_org_filter_witness :
    ("VGPDR---BH" : String) ≠ "" ∧
      ∀ x ∈ get_inventories_by_spk c8World (some "SPK1") (some "VGPDR---BH"),
        pyContains x.name "VGPDR---BH" = true :=
  ⟨by decide,
    get_inventories_org_filter_and_scenario.1 c8World "SPK1" "VGPDR---BH" (by decide)⟩

/-! ## Claim C9: failed host-detail fetches are emitted fail-open -/

/-- `processHost` only ever appends to the accumulator. -/
theorem processHost_sub (w : TowerWorld) (c e gn : String) (acc : List ServerRecord)
    (h1 : TwHost) : acc ⊆ processHost w c e gn acc h1 := by
  unfold processHost
  split
  · exact fun _ hx => hx
  · split
    · exact List.subset_append_left _ _
    · exact List.subset_append_left _ _

/-- The host fold only ever appends to the accumulator. -/
theorem hostsFold_sub (w : TowerWorld) (c e gn : String) (hosts : List TwHost) :
    ∀ acc, acc ⊆ hosts.foldl (processHost w c e gn) acc := by
  induction hosts with
  | nil =>
    intro acc
    rw [List.foldl_nil]
    exact fun _ hx => hx
  | cons hh rest ih =>
    intro acc
    rw [List.foldl_cons]
    exact fun x hx => ih _ (processHost_sub w c e gn acc hh hx)

/-- `processGroup` only ever appends to the accumulator. -/
theorem processGroup_sub (w : TowerWorld) (c e : String) (acc : List ServerRecord)
    (g : TwGroup) : acc ⊆ processGroup w c e acc g := by
  unfold processGroup
  split
  · split
    · exact fun _ hx => hx
    · exact hostsFold_sub w c e g.name _ acc
  · exact fun _ hx => hx

/-- The group fold only ever appends to the accumulator. -/
theorem groupsFold_sub (w : TowerWorld) (c e : String) (gs : List TwGroup) :
    ∀ acc, acc ⊆ gs.foldl (processGroup w c e) acc := by
  induction gs with
  | nil =>
    intro acc
    rw [List.foldl_nil]
    exact fun _ hx => hx
  | cons g0 rest ih =>
    intro acc
    rw [List.foldl_cons]
    exact fun x hx => ih _ (processGroup_sub w c e acc g0 hx)

/-- The inventory fold only ever appends to the accumulator. -/
theorem invsFold_sub (w : TowerWorld) (c e : String) (invs : List TInvWithGroups) :
    ∀ acc, acc ⊆ invs.foldl (processInventory w c e) acc := by
  induction invs with
  | nil =>
    intro acc
    rw [List.foldl_nil]
    exact fun _ hx => hx
  | cons inv0 rest ih =>
    intro acc
    rw [List.foldl_cons]
    exact fun x hx => ih _ (groupsFold_sub w c e inv0.groups acc hx)

/-- A host whose detail fetch fails leaves `processHost` with some record
carrying its server name (the fresh fail-open record, or an earlier record
when the name is a duplicate). -/
theorem processHost_mem (w : TowerWorld) (c e gn : String) (acc : List ServerRecord)
    (h1 : TwHost) (hd : w.detailOf h1.id = none) :
    ∃ s ∈ processHost w c e gn acc h1, s.server_name = h1.name := by
  unfold processHost
  split
  · rename_i hdup
    obtain ⟨s, hs, hname⟩ := List.mem_map.mp hdup
    exact ⟨s, hs, hname⟩
  · rw [hd]
    exact ⟨_, List.mem_append_right _ (List.mem_singleton_self _), rfl⟩

/-- Through the host fold, a failing host of the list ends up named in the
accumulator. -/
theorem hostsFold_mem (w : TowerWorld) (c e gn : String) (h1 : TwHost)
    (hd : w.detailOf h1.id = none) :
    ∀ (hosts : List TwHost), h1 ∈ hosts →
      ∀ acc, ∃ s ∈ hosts.foldl (processHost w c e gn) acc, s.server_name = h1.name := by
  intro hosts
  induction hosts with
  | nil =>
    intro hmem
    simp at hmem
  | cons hh rest ih =>
    intro hmem acc
    rw [List.foldl_cons]
    rcases List.mem_cons.mp hmem with heq | hmem2
    · subst heq
      obtain ⟨s, hs, hn⟩ := processHost_mem w c e gn acc h1 hd
      exact ⟨s, hostsFold_sub w c e gn rest _ hs, hn⟩
    · exact ih hmem2 _

/-- Through the group fold, a failing host of a candidate group ends up named
in the accumulator. -/
theorem groupsFold_mem (w : TowerWorld) (c e : String) (h1 : TwHost)
    (hd : w.detailOf h1.id = none) :
    ∀ (gs : List TwGroup) (g : TwGroup), g ∈ gs → groupMatches c e g.name = true →
      ∀ hosts, w.hostsOf g.id = some hosts → h1 ∈ hosts →
      ∀ acc, ∃ s ∈ gs.foldl (processGroup w c e) acc, s.server_name = h1.name := by
  intro gs
  induction gs with
  | nil =>
    intro g hg
    simp at hg
  | cons g0 rest ih =>
    intro g hg hm hosts hh hmem acc
    rw [List.foldl_cons]
    rcases List.mem_cons.mp hg with heq | hg2
    · subst heq
      have hx : ∃ s ∈ processGroup w c e acc g, s.server_name = h1.name := by
        unfold processGroup
        simp only [hm, if_true, hh]
        exact hostsFold_mem w c e g.name h1 hd hosts hmem acc
      obtain ⟨s, hs, hn⟩ := hx
      exact ⟨s, groupsFold_sub w c e rest _ hs, hn⟩
    · exact ih g hg2 hm hosts hh hmem _

/-- Through the inventory fold, a failing host of a candidate group of one of
the inventories ends up named in the accumulator. -/
theorem invsFold_mem (w : TowerWorld) (c e : String) (h1 : TwHost)
    (hd : w.detailOf h1.id = none) :
    ∀ (invs : List TInvWithGroups) (inv : TInvWithGroups), inv ∈ invs →
      ∀ (g : TwGroup), g ∈ inv.groups → groupMatches c e g.name = true →
      ∀ hosts, w.hostsOf g.id = some hosts → h1 ∈ hosts →
      ∀ acc, ∃ s ∈ invs.foldl (processInventory w c e) acc, s.server_name = h1.name := by
  intro invs
  induction invs with
  | nil =>
    intro inv hinv
    simp at hinv
  | cons inv0 rest ih =>
    intro inv hinv g hg hm hosts hh hmem acc
    rw [List.foldl_cons]
    rcases List.mem_cons.mp hinv with heq | hinv2
    · subst heq
      obtain ⟨s, hs, hn⟩ := groupsFold_mem w c e h1 hd inv.groups g hg hm hosts hh hmem acc
      exact ⟨s, invsFold_sub w c e rest _ hs, hn⟩
    · exact ih inv hinv2 g hg hm hosts hh hmem _

/-- `processHost` preserves the invariant "every record named `nm` is the
fail-open record", provided any processed host named `nm` has a failing
detail fetch. -/
theorem processHost_pres (w : TowerWorld) (c e gn nm : String) (acc : List ServerRecord)
    (h1 : TwHost)
    (hacc : ∀ s ∈ acc, s.server_name = nm → s.os_info = "Unknown" ∧ s.enabled = true)
    (hdet : h1.name = nm → w.detailOf h1.id = none) :
    ∀ s ∈ processHost w c e gn acc h1, s.server_name = nm →
      s.os_info = "Unknown" ∧ s.enabled = true := by
  intro s hs hname
  unfold processHost at hs
  split at hs
  · exact hacc s hs hname
  · cases hdd : w.detailOf h1.id with
    | none =>
      rw [hdd] at hs
      rcases List.mem_append.mp hs with hsa | hse
      · exact hacc s hsa hname
      · obtain rfl := List.mem_singleton.mp hse
        exact ⟨rfl, rfl⟩
    | some d =>
      rw [hdd] at hs
      rcases List.mem_append.mp hs with hsa | hse
      · exact hacc s hsa hname
      · obtain rfl := List.mem_singleton.mp hse
        have hn : w.detailOf h1.id = none := hdet hname
        rw [hn] at hdd
        exact absurd hdd (by simp)

/-- The host fold preserves the fail-open invariant. -/
theorem hostsFold_pres (w : TowerWorld) (c e gn nm : String) :
    ∀ (hosts : List TwHost) (acc : List ServerRecord),
      (∀ s ∈ acc, s.server_name = nm → s.os_info = "Unknown" ∧ s.enabled = true) →
      (∀ h2 ∈ hosts, h2.name = nm → w.detailOf h2.id = none) →
      ∀ s ∈ hosts.foldl (processHost w c e gn) acc, s.server_name = nm →
        s.os_info = "Unknown" ∧ s.enabled = true := by
  intro hosts
  induction hosts with
  | nil =>
    intro acc hacc _ s hs
    rw [List.foldl_nil] at hs
    exact hacc s hs
  | cons hh rest ih =>
    intro acc hacc hdet s hs
    rw [List.foldl_cons] at hs
    exact ih _
      (processHost_pres w c e gn nm acc hh hacc (hdet hh (List.mem_cons_self hh rest)))
      (fun h2 hm => hdet h2 (List.mem_cons_of_mem _ hm)) s hs

/-- `processGroup` preserves the fail-open invariant. -/
theorem processGroup_pres (w : TowerWorld) (c e nm : String) (acc : List ServerRecord)
    (g : TwGroup)
    (hacc : ∀ s ∈ acc, s.server_name = nm → s.os_info = "Unknown" ∧ s.enabled = true)
    (hdet : groupMatches c e g.name = true → ∀ hosts, w.hostsOf g.id = some hosts →
      ∀ h2 ∈ hosts, h2.name = nm → w.detailOf h2.id = none) :
    ∀ s ∈ processGroup w c e acc g, s.server_name = nm →
      s.os_info = "Unknown" ∧ s.enabled = true := by
  intro s hs
  unfold processGroup at hs
  split at hs
  · rename_i hm
    cases hh : w.hostsOf g.id with
    | none =>
      rw [hh] at hs
      exact hacc s hs
    | some hosts =>
      rw [hh] at hs
      exact hostsFold_pres w c e g.name nm hosts acc hacc (hdet hm hosts hh) s hs
  · exact hacc s hs

/-- The group fold preserves the fail-open invariant. -/
theorem groupsFold_pres (w : TowerWorld) (c e nm : String) :
    ∀ (gs : List TwGroup) (acc : List ServerRecord),
      (∀ s ∈ acc, s.server_name = nm → s.os_info = "Unknown" ∧ s.enabled = true) →
      (∀ g ∈ gs, groupMatches c e g.name = true → ∀ hosts, w.hostsOf g.id = some hosts →
        ∀ h2 ∈ hosts, h2.name = nm → w.detailOf h2.id = none) →
      ∀ s ∈ gs.foldl (processGroup w c e) acc, s.server_name = nm →
        s.os_info = "Unknown" ∧ s.enabled = true := by
  intro gs
  induction gs with
  | nil =>
    intro acc hacc _ s hs
    rw [List.foldl_nil] at hs
    exact hacc s hs
  | cons g0 rest ih =>
    intro acc hacc hdet s hs
    rw [List.foldl_cons] at hs
    exact ih _
      (processGroup_pres w c e nm acc g0 hacc (hdet g0 (List.mem_cons_self g0 rest)))
      (fun g hg => hdet g (List.mem_cons_of_mem _ hg)) s hs

/-- The inventory fold preserves the fail-open invariant. -/
theorem invsFold_pres (w : TowerWorld) (c e nm : String) :
    ∀ (invs : List TInvWithGroups) (acc : List ServerRecord),
      (∀ s ∈ acc, s.server_name = nm → s.os_info = "Unknown" ∧ s.enabled = true) →
      (∀ inv ∈ invs, ∀ g ∈ inv.groups, groupMatches c e g.name = true →
        ∀ hosts, w.hostsOf g.id = some hosts →
        ∀ h2 ∈ hosts, h2.name = nm → w.detailOf h2.id = none) →
      ∀ s ∈ invs.foldl (processInventory w c e) acc, s.server_name = nm →
        s.os_info = "Unknown" ∧ s.enabled = true := by
  intro invs
  induction invs with
  | nil =>
    intro acc hacc _ s hs
    rw [List.foldl_nil] at hs
    exact hacc s hs
  | cons inv0 rest ih =>
    intro acc hacc hdet s hs
    rw [List.foldl_cons] at hs
    exact ih _
      (groupsFold_pres w c e nm inv0.groups acc hacc
        (hdet inv0 (List.mem_cons_self inv0 rest)))
      (fun inv hinv => hdet inv (List.mem_cons_of_mem _ hinv)) s hs

/-- C9: every host of a candidate group whose detail fetch fails (non-200) is
still emitted in the output of `get_servers_for_component` — under the
hypothesis (forced by the duplicate-name skip) that every processed host
carrying the same server name also has a failing detail fetch — with
`os_info = "Unknown"` and `enabled = true`, rather than being dropped. -/
theorem get_servers_failed_detail_emitted (w : TowerWorld) (comp env : String)
    (invs : List TInvWithGroups) (inv : TInvWithGroups) (g : TwGroup) (hosts : List TwHost)
    (h1 : TwHost)
    (hinv : inv ∈ invs) (hg : g ∈ inv.groups) (hm : groupMatches comp env g.name = true)
    (hh : w.hostsOf g.id = some hosts) (hmem : h1 ∈ hosts)
    (hfail : ∀ inv2 ∈ invs, ∀ g2 ∈ inv2.groups, groupMatches comp env g2.name = true →
      ∀ hosts2, w.hostsOf g2.id = some hosts2 → ∀ h2 ∈ hosts2, h2.name = h1.name →
        w.detailOf h2.id = none)
    (hc : comp ≠ "") (he : env ≠ "") :
    ∃ s ∈ get_servers_for_component w comp env invs,
      s.server_name = h1.name ∧ s.os_info = "Unknown" ∧ s.enabled = true := by
  have hdet : w.detailOf h1.id = none := hfail inv hinv g hg hm hosts hh h1 hmem rfl
  have hne : invs ≠ [] := by
    intro hcon
    subst hcon
    simp at hinv
  unfold get_servers_for_component
  rw [if_neg (by simp [hc, he, hne])]
  obtain ⟨s, hs, hname⟩ :=
    invsFold_mem w comp env h1 hdet invs inv hinv g hg hm hosts hh hmem []
  have hp := invsFold_pres w comp env h1.name invs [] (by simp) hfail s hs
  exact ⟨s, hs, hname, hp hname⟩

/-- Witness for C9 at a concrete input: the host with the failed (HTTP 500)
detail fetch appears in the output with `os_info = "Unknown"`, `enabled =
true`. -/
theorem get_servers_failed_detail_emitted_witness :
    c9World.detailOf 100 = none ∧
      ∃ s ∈ get_servers_for_component c9World "app" "DEV" [⟨1, "SPK1_PROD", [⟨5, "app_dev_grp"⟩]⟩],
        s.server_name = "host1" ∧ s.os_info = "Unknown" ∧ s.enabled = true := by
  refine ⟨rfl, ?_⟩
  exact get_servers_failed_detail_emitted c9World "app" "DEV"
    [⟨1, "SPK1_PROD", [⟨5, "app_dev_grp"⟩]⟩] ⟨1, "SPK1_PROD", [⟨5, "app_dev_grp"⟩]⟩
    ⟨5, "app_dev_grp"⟩ [⟨100, "host1"⟩] ⟨100, "host1"⟩
    (List.mem_singleton_self _) (List.mem_singleton_self _) (by decide) (by decide)
    (List.mem_singleton_self _)
    (fun inv2 hinv2 g2 hg2 hm2 hosts2 hh2 h2 hmem2 hname2 => rfl)
    (by decide) (by decide)

/-! ## Claim C10: `ResolveServers` final-pair progress event -/

/-- C10 (failing input): with two components of two environments each, the
loop completes 4 `(component, environment)` pairs, but the code computes
`total = len(components) * len(flattened envs) = 8`, so the final pair
satisfies neither `completed % 5 == 0` nor `completed == total` and no
progress event at all is emitted — contradicting the claim that a progress
event always accompanies the final pair.  (With a single component the
computed total is correct: the final pair then emits, as the second conjunct
shows.) -/
theorem step4_no_final_progress_event :
    step4Pairs [⟨"c1", ["DEV", "PROD"]⟩, ⟨"c2", ["DEV", "PROD"]⟩] = 4 ∧
    step4Total [⟨"c1", ["DEV", "PROD"]⟩, ⟨"c2", ["DEV", "PROD"]⟩] = 8 ∧
    step4Events [⟨"c1", ["DEV", "PROD"]⟩, ⟨"c2", ["DEV", "PROD"]⟩] = [] ∧
    step4Events [⟨"c1", ["DEV", "PROD"]⟩] = [2] := by
  refine ⟨?_, ?_, ?_, ?_⟩ <;> decide
